import Mathlib

/-!
Verification of the four-stage news pipeline in `src/main.py`
(fetch, prioritize, rewrite, publish).

The pure decision logic of the pipeline is embedded shallowly:

* `Article` and `TweetResult` mirror the pydantic models.
* `TRUSTED_SOURCES`, `calculate_recency_score`, `has_image_bonus` and
  `prioritize_articles` embed the scoring helpers and node 2.  The Python
  expression `datetime.fromisoformat(published_at.replace('Z', '+00:00'))`
  together with the subtraction from `datetime.now(timezone.utc)` is
  abstracted as a parameter `parse : String → Option ℚ` giving the elapsed
  hours for a parsable timestamp and `none` when `fromisoformat` raises
  (the surrounding `try`/`except` then yields the default score 3).
  Python's `sorted(..., key=..., reverse=True)` is a stable descending
  sort; it is embedded as `List.mergeSort` with the reflexive-total
  comparison "left score not below right score", which is likewise stable.
* `pyStrip`, `stripLinks` and `rewriteOne` embed the post-processing of
  node 3: `output.content.strip()`, the substitution
  `re.sub(r'\[([^\]]+)\]\([^)]+\)', r'\1', ...)` and the slice `[:250]`.
* `resolveAutoPost`, `imageStep`, `postStep`, `postLoop` and
  `post_to_twitter` embed node 4.  The external collaborators (HTTP image
  fetch, media upload, tweet creation) are oracles supplied per item in an
  `ItemEnv`; `Except` models raised exceptions.
-/

namespace NewsAgent

/-- Embeds the pydantic model `Article` of `src/main.py`.  The float field
`priority_score` only ever holds small exact sums, embedded in `ℚ`. -/
structure Article where
  title : String
  description : String
  source : String
  author : Option String := none
  url : String
  published_at : String
  image_url : Option String := none
  priority_score : ℚ := 0
  priority_reason : String := ""
deriving DecidableEq, Repr

/-- Embeds the pydantic model `TweetResult` of `src/main.py`. -/
structure TweetResult where
  tweet_text : String
  tweet_id : Option String := none
  tweet_url : Option String := none
  success : Bool := false
  error : Option String := none
deriving DecidableEq, Repr

instance : Inhabited TweetResult :=
  ⟨{ tweet_text := "" }⟩

/-- Python truthiness of an optional string (`None` and `""` are falsy),
as used by `2.0 if url else 0.0` and `if article.image_url:`. -/
def pyTruthy : Option String → Bool
  | none => false
  | some s => s != ""

/-- The fixed trust table `TRUSTED_SOURCES` of `src/main.py`. -/
def TRUSTED_SOURCES : List (String × ℕ) :=
  [("BBC News", 10), ("Reuters", 10), ("Associated Press", 10), ("The Guardian", 9),
   ("CNN", 8), ("The New York Times", 9), ("Al Jazeera", 8), ("The Washington Post", 9),
   ("Bloomberg", 8), ("CNBC", 7), ("Financial Times", 9), ("NPR", 8),
   ("The Wall Street Journal", 9)]

/-- Embeds `TRUSTED_SOURCES.get(article.source, 5)`. -/
def TRUSTED_SOURCES_get (source : String) : ℕ :=
  (TRUSTED_SOURCES.lookup source).getD 5

/-- The breakpoint chain inside `calculate_recency_score`, as a function of
the elapsed hours `hours_old`. -/
def recencyFromHours (hours_old : ℚ) : ℕ :=
  if hours_old ≤ 6 then 10
  else if hours_old ≤ 24 then 8
  else if hours_old ≤ 48 then 6
  else if hours_old ≤ 168 then 4
  else 2

/-- Embeds `calculate_recency_score` of `src/main.py`: `parse` abstracts the
ISO-8601 parse plus subtraction from the current UTC instant, returning the
elapsed hours, or `none` when parsing raises; the `except` branch then
returns 3. -/
def calculate_recency_score (parse : String → Option ℚ) (published_at : String) : ℕ :=
  match parse published_at with
  | some hours_old => recencyFromHours hours_old
  | none => 3

/-- Embeds `has_image_bonus` of `src/main.py` (`2.0 if url else 0.0`). -/
def has_image_bonus (url : Option String) : ℚ :=
  if pyTruthy url then 2 else 0

/-- The per-article mutation performed by the loop in `prioritize_articles`:
assign `priority_score` and `priority_reason`. -/
def scoreArticle (parse : String → Option ℚ) (a : Article) : Article :=
  let src_score := TRUSTED_SOURCES_get a.source
  let recency := calculate_recency_score parse a.published_at
  let total : ℚ := (src_score : ℚ) + (recency : ℚ) + has_image_bonus a.image_url
  { a with
    priority_score := total
    priority_reason := "source=" ++ toString src_score ++ ", recency=" ++ toString recency }

/-- The comparison used to embed `sorted(articles, key=lambda x:
x.priority_score, reverse=True)`: descending on `priority_score`. -/
def scoreLE (x y : Article) : Bool :=
  decide (y.priority_score ≤ x.priority_score)

/-- Embeds node 2, `prioritize_articles` of `src/main.py`: score every
article, sort by descending score (stably, as CPython's `sorted` is), and
keep the first five. -/
def prioritize_articles (parse : String → Option ℚ) (articles : List Article) : List Article :=
  ((articles.map (scoreArticle parse)).mergeSort scoreLE).take 5

/-! ### Rewrite stage (node 3)

`rewrite_news` post-processes each raw model output with
`re.sub(r'\[([^\]]+)\]\([^)]+\)', r'\1', output.content.strip())[:250]`.
The regex scans left to right; at a `[` it matches the (necessarily
maximal-up-to-the-first `]`) non-empty bracket text, an immediately
following `(`, the non-empty text up to the first `)`, and that `)`;
the whole match is replaced by the bracket text and scanning resumes
after the match.  `stripLinks` embeds this scan; fuel makes the
recursion structural, `l.length` steps always suffice. -/

/-- Characters removed by Python's `str.strip()` (ASCII whitespace). -/
def pyIsSpace (c : Char) : Bool :=
  c = ' ' || c = '\t' || c = '\n' || c = '\x0b' || c = '\x0c' || c = '\r'

/-- Embeds `str.strip()`: drop leading and trailing whitespace. -/
def pyStrip (l : List Char) : List Char :=
  ((l.dropWhile pyIsSpace).reverse.dropWhile pyIsSpace).reverse

/-- Split a character list at the first occurrence of `c`:
`findSplit c l = some (pre, suf)` iff `l = pre ++ c :: suf` with `c ∉ pre`. -/
def findSplit (c : Char) : List Char → Option (List Char × List Char)
  | [] => none
  | x :: xs =>
    if x = c then some ([], xs)
    else
      match findSplit c xs with
      | some (pre, suf) => some (x :: pre, suf)
      | none => none

/-- Attempt the regex match right after a `[`: returns the bracket text and
the remainder after the closing `)` when
`l = text ++ ']' :: '(' :: link ++ ')' :: rest` with `text` and `link`
non-empty and free of `]` resp. `)`. -/
def tryMatch (l : List Char) : Option (List Char × List Char) :=
  match findSplit ']' l with
  | none => none
  | some (text, rest₁) =>
    if text = [] then none
    else
      match rest₁ with
      | [] => none
      | c :: rest₂ =>
        if c = '(' then
          match findSplit ')' rest₂ with
          | none => none
          | some (link, rest₃) => if link = [] then none else some (text, rest₃)
        else none

/-- The left-to-right substitution scan of
`re.sub(r'\[([^\]]+)\]\([^)]+\)', r'\1', s)`, with explicit fuel. -/
def stripLinksGo : ℕ → List Char → List Char
  | 0, l => l
  | _ + 1, [] => []
  | fuel + 1, c :: rest =>
    if c = '[' then
      match tryMatch rest with
      | some (text, rem) => text ++ stripLinksGo fuel rem
      | none => c :: stripLinksGo fuel rest
    else c :: stripLinksGo fuel rest

/-- Embeds `re.sub(r'\[([^\]]+)\]\([^)]+\)', r'\1', s)`.  Every step of the
scan consumes at least one character, so `l.length` fuel is enough. -/
def stripLinks (l : List Char) : List Char :=
  stripLinksGo l.length l

/-- The per-article post-processing of node 3:
`re.sub(..., output.content.strip())` followed by the slice `[:250]`. -/
def rewriteOne (content : List Char) : List Char :=
  (stripLinks (pyStrip content)).take 250

/-- Embeds node 3, `rewrite_news` of `src/main.py`, as a function of the raw
model outputs (one per top article, same order): each output is
post-processed by `rewriteOne`; no article is dropped. -/
def rewrite_news (outputs : List (List Char)) : List (List Char) :=
  outputs.map rewriteOne

/-! ### Publish stage (node 4) -/

/-- The value found under `"auto_post"` in the graph state: the code handles
both strings and booleans, and `state.get("auto_post", False)` defaults a
missing key to `False`. -/
inductive AutoPostVal where
  | str (s : String)
  | boolean (b : Bool)
  | missing
deriving DecidableEq, Repr

/-- ASCII model of Python's `str.lower()` on one character. -/
def pyLowerChar (c : Char) : Char :=
  if 'A' ≤ c ∧ c ≤ 'Z' then Char.ofNat (c.toNat + 32) else c

/-- ASCII model of Python's `str.lower()`. -/
def pyLower (s : String) : String :=
  String.mk (s.data.map pyLowerChar)

/-- Embeds lines 190-195 of `src/main.py`: a string enables auto-post iff it
lowercases to `"true"`; a boolean is used as is; a missing key means
`False`. -/
def resolveAutoPost : AutoPostVal → Bool
  | .str s => pyLower s == "true"
  | .boolean b => b
  | .missing => false

/-- Outcomes of the external collaborators for one (tweet, article) pair:
`fetch` is `requests.get(article.image_url)` (`.ok` a status code, `.error`
a raised exception's message), `upload` is the tempfile write plus
`twitter_api_v1.media_upload` (`.ok` a media id), and `post` is
`twitter_client.create_tweet` given the media id actually attached
(`.ok` the created tweet's id, `.error` a raised exception's message). -/
structure ItemEnv where
  fetch : Except String ℕ
  upload : Except String ℕ
  post : Option ℕ → Except String String

/-- What the image-attach block of `post_to_twitter` leaves behind: the
media id (if any) and the lifecycle of the temporary file.  The code opens
`tempfile.NamedTemporaryFile(suffix=".jpg", delete=False)` once the fetch
returned HTTP 200; leaving the `with` block closes the file but
`delete=False` keeps it, and no `os.unlink` ever runs. -/
structure MediaAttempt where
  media_id : Option ℕ
  tmp_created : Bool
  tmp_deleted : Bool
deriving DecidableEq, Repr

/-- Embeds the image fallback block (lines 220-233 of `src/main.py`). -/
def imageStep (image_url : Option String) (fetch upload : Except String ℕ) : MediaAttempt :=
  if pyTruthy image_url then
    match fetch with
    | .error _ => ⟨none, false, false⟩
    | .ok code =>
      if code = 200 then
        match upload with
        | .ok mid => ⟨some mid, true, false⟩
        | .error _ => ⟨none, true, false⟩
      else ⟨none, false, false⟩
  else ⟨none, false, false⟩

/-- Embeds the tweet-creation block (lines 236-258 of `src/main.py`). -/
def postStep (full_tweet : String) (media_id : Option ℕ)
    (create : Option ℕ → Except String String) : TweetResult :=
  match create media_id with
  | .ok tid =>
    { tweet_text := full_tweet
      tweet_id := some tid
      tweet_url := some ("https://x.com/user/status/" ++ tid)
      success := true
      error := none }
  | .error msg =>
    { tweet_text := full_tweet
      tweet_id := none
      tweet_url := none
      success := false
      error := some msg }

/-- One iteration of the posting loop: compose
`f"{tweet}\n\n{article.url}"`, run the image block, then the tweet block. -/
def postPair (env : ItemEnv) (tweet : String) (article : Article) : TweetResult :=
  let full_tweet := tweet ++ "\n\n" ++ article.url
  postStep full_tweet (imageStep article.image_url env.fetch env.upload).media_id env.post

/-- The `for i, (tweet, article) in enumerate(zip(...))` loop, with `i` the
zero-based pair index selecting that pair's collaborator outcomes. -/
def postLoop (env : ℕ → ItemEnv) : ℕ → List (String × Article) → List TweetResult
  | _, [] => []
  | i, (tweet, article) :: rest =>
    postPair (env i) tweet article :: postLoop env (i + 1) rest

/-- Embeds node 4, `post_to_twitter` of `src/main.py`.  `clientV2` and
`clientV1` say whether `twitter_client` and `twitter_api_v1` initialized
(are non-`None`); `env` supplies each pair's collaborator outcomes;
`num_opt` is the `"num_tweets_to_post"` entry of the state (`none` when the
key is absent, so `state.get("num_tweets_to_post", 1)` yields 1).  The
result is `.error` when the code raises, `.ok` with the collected
`tweet_results` otherwise. -/
def post_to_twitter (clientV2 clientV1 : Bool) (env : ℕ → ItemEnv)
    (tweets : List String) (articles : List Article)
    (auto_post_raw : AutoPostVal) (num_opt : Option ℕ) : Except String (List TweetResult) :=
  let auto_post := resolveAutoPost auto_post_raw
  let num_to_post := num_opt.getD 1
  if auto_post = false then
    .ok ((tweets.take num_to_post).map fun t =>
      { tweet_text := t, success := false, error := some "Auto-post disabled" })
  else if clientV2 = false ∨ clientV1 = false then
    .error "Twitter clients not initialized properly"
  else
    .ok (postLoop env 0 ((tweets.take num_to_post).zip (articles.take num_to_post)))

/-! ### Concrete inputs used in witnesses and counterexamples -/

/-- An article from an unlisted source carrying an empty-string image URL
(`urlToImage` can be the empty string in a raw record). -/
def emptyImageArticle : Article :=
  { title := "t", description := "d", source := "Unlisted Daily",
    url := "http://example.com/a", published_at := "not-a-date",
    image_url := some "" }

/-- The BBC article of the spec's end-to-end scenario: listed source,
non-empty image URL. -/
def bbcArticle : Article :=
  { title := "b", description := "", source := "BBC News",
    url := "http://example.com/b", published_at := "2025-01-01T00:00:00Z",
    image_url := some "http://example.com/b.jpg" }

/-- A model output longer than 250 characters whose stripped form is short:
`"[a](b)]("` followed by 243 blanks (251 characters in total). -/
def overlongOutput : List Char :=
  "[a](b)](".toList ++ List.replicate 243 ' '

/-- The default `Article` used with `List.getD` when indexing pairs. -/
def noArticle : Article :=
  { title := "", description := "", source := "", url := "", published_at := "" }

/-- A collaborator environment in which every call raises. -/
def deadEnv : ItemEnv :=
  ⟨.error "offline", .error "offline", fun _ => .error "offline"⟩

/-- A collaborator environment whose image fetch returns HTTP 404 and whose
tweet creation raises. -/
def envW : ℕ → ItemEnv :=
  fun _ => ⟨.ok 404, .ok 9, fun _ => .error "boom"⟩

/-! ## Theorems -/

lemma recencyFromHours_le6 (x : ℚ) (hx : x ≤ 6) : recencyFromHours x = 10 := by
  unfold recencyFromHours
  rw [if_pos hx]

lemma recencyFromHours_le24 (x : ℚ) (hx6 : 6 < x) (hx : x ≤ 24) :
    recencyFromHours x = 8 := by
  unfold recencyFromHours
  rw [if_neg (not_le.mpr hx6), if_pos hx]

lemma recencyFromHours_le48 (x : ℚ) (hx24 : 24 < x) (hx : x ≤ 48) :
    recencyFromHours x = 6 := by
  unfold recencyFromHours
  rw [if_neg (not_le.mpr (by linarith)), if_neg (not_le.mpr hx24), if_pos hx]

lemma recencyFromHours_le168 (x : ℚ) (hx48 : 48 < x) (hx : x ≤ 168) :
    recencyFromHours x = 4 := by
  unfold recencyFromHours
  rw [if_neg (not_le.mpr (by linarith)), if_neg (not_le.mpr (by linarith)),
    if_neg (not_le.mpr hx48), if_pos hx]

lemma recencyFromHours_old (x : ℚ) (hx : 168 < x) : recencyFromHours x = 2 := by
  unfold recencyFromHours
  rw [if_neg (not_le.mpr (by linarith)), if_neg (not_le.mpr (by linarith)),
    if_neg (not_le.mpr (by linarith)), if_neg (not_le.mpr hx)]

lemma recencyFromHours_mono {x y : ℚ} (hxy : x ≤ y) :
    recencyFromHours y ≤ recencyFromHours x := by
  unfold recencyFromHours
  split_ifs <;> first | omega | (exfalso; linarith)

/-- C3: the recency score is 10 for elapsed hours ≤ 6, 8 for ≤ 24, 6 for
≤ 48, 4 for ≤ 168 and 2 beyond; a timestamp the parser rejects scores 3;
and over parsable timestamps the score is non-increasing in the elapsed
hours. -/
theorem recency_breakpoints_monotone (parse : String → Option ℚ) (s : String) :
    (∀ x : ℚ, parse s = some x →
        (x ≤ 6 → calculate_recency_score parse s = 10)
      ∧ (6 < x → x ≤ 24 → calculate_recency_score parse s = 8)
      ∧ (24 < x → x ≤ 48 → calculate_recency_score parse s = 6)
      ∧ (48 < x → x ≤ 168 → calculate_recency_score parse s = 4)
      ∧ (168 < x → calculate_recency_score parse s = 2))
    ∧ (parse s = none → calculate_recency_score parse s = 3)
    ∧ (∀ (s₁ s₂ : String) (x₁ x₂ : ℚ), parse s₁ = some x₁ → parse s₂ = some x₂ →
        x₁ ≤ x₂ → calculate_recency_score parse s₂ ≤ calculate_recency_score parse s₁) := by
  refine ⟨?_, ?_, ?_⟩
  · intro x hp
    simp only [calculate_recency_score, hp]
    exact ⟨recencyFromHours_le6 x, recencyFromHours_le24 x, recencyFromHours_le48 x,
      recencyFromHours_le168 x, recencyFromHours_old x⟩
  · intro hp
    simp only [calculate_recency_score, hp]
  · intro s₁ s₂ x₁ x₂ h₁ h₂ hle
    simp only [calculate_recency_score, h₁, h₂]
    exact recencyFromHours_mono hle

/-- Witness for C3 at elapsed hours 30 (score 6), an unparsable timestamp
(score 3), and the monotone pair 30 ≤ 200. -/
theorem recency_breakpoints_monotone_witness :
    calculate_recency_score (fun _ => some 30) "2025-01-01T00:00:00Z" = 6
    ∧ calculate_recency_score (fun _ => none) "not-a-date" = 3
    ∧ calculate_recency_score (fun t => if t = "old" then some 200 else some 30) "old"
        ≤ calculate_recency_score (fun t => if t = "old" then some 200 else some 30) "new" := by
  have h₁ := recency_breakpoints_monotone (fun _ => some 30) "2025-01-01T00:00:00Z"
  have h₂ := recency_breakpoints_monotone (fun _ => none) "not-a-date"
  have h₃ := recency_breakpoints_monotone (fun t => if t = "old" then some 200 else some 30) "x"
  exact ⟨((h₁.1 30 rfl).2.2.1) (by norm_num) (by norm_num), h₂.2.1 rfl,
    h₃.2.2 "new" "old" 30 200 (by simp) (by simp) (by norm_num)⟩

lemma lookup_eq_of_mem :
    ∀ (l : List (String × ℕ)) (s : String) (v : ℕ),
      (s, v) ∈ l → (l.map Prod.fst).Nodup → l.lookup s = some v := by
  intro l
  induction l with
  | nil => intro s v h _; simp at h
  | cons p rest ih =>
    intro s v h hnd
    obtain ⟨k, w⟩ := p
    rw [List.map_cons] at hnd
    obtain ⟨hk, hnd'⟩ := List.nodup_cons.mp hnd
    rcases List.mem_cons.mp h with he | hm
    · obtain ⟨rfl, rfl⟩ := Prod.mk.injEq .. ▸ he
      simp [List.lookup]
    · have hs : s ∈ rest.map Prod.fst := by
        simpa using List.mem_map_of_mem Prod.fst hm
      have hne : (s == k) = false := by
        simp only [beq_eq_false_iff_ne, ne_eq]
        exact fun e => hk (e ▸ hs)
      simp [List.lookup, hne, ih s v hm hnd']

lemma TRUSTED_SOURCES_get_of_mem {s : String} {v : ℕ}
    (hv : (s, v) ∈ TRUSTED_SOURCES) : TRUSTED_SOURCES_get s = v := by
  rw [TRUSTED_SOURCES_get, lookup_eq_of_mem TRUSTED_SOURCES s v hv (by decide)]
  rfl

lemma TRUSTED_SOURCES_get_of_not_mem {s : String}
    (h : ∀ v : ℕ, (s, v) ∉ TRUSTED_SOURCES) : TRUSTED_SOURCES_get s = 5 := by
  have hl : TRUSTED_SOURCES.lookup s = none := by
    rw [List.lookup_eq_none_iff]
    intro p hp
    rw [bne_iff_ne]
    intro e
    rcases p with ⟨k, v⟩
    exact h v (by rw [e]; exact hp)
  simp [TRUSTED_SOURCES_get, hl]

/-- C2 (amended): the total priority score is the sum of the source-trust
score, the recency score and the image bonus; an unlisted source scores 5
and a listed one its table value; the image bonus is 2 for a present
non-empty image URL and 0 for an absent or empty one (the code tests
Python truthiness, under which the empty string counts as no image). -/
theorem score_components (parse : String → Option ℚ) (a : Article) :
    (scoreArticle parse a).priority_score
        = (TRUSTED_SOURCES_get a.source : ℚ)
          + (calculate_recency_score parse a.published_at : ℚ)
          + has_image_bonus a.image_url
    ∧ ((∀ v : ℕ, (a.source, v) ∉ TRUSTED_SOURCES) → TRUSTED_SOURCES_get a.source = 5)
    ∧ (∀ v : ℕ, (a.source, v) ∈ TRUSTED_SOURCES → TRUSTED_SOURCES_get a.source = v)
    ∧ (∀ u : String, a.image_url = some u → u ≠ "" → has_image_bonus a.image_url = 2)
    ∧ (a.image_url = none ∨ a.image_url = some "" → has_image_bonus a.image_url = 0) := by
  refine ⟨rfl, fun h => TRUSTED_SOURCES_get_of_not_mem h,
    fun v hv => TRUSTED_SOURCES_get_of_mem hv, ?_, ?_⟩
  · intro u hu hne
    simp [has_image_bonus, pyTruthy, hu, hne]
  · rintro (hu | hu) <;> simp [has_image_bonus, pyTruthy, hu]

/-- C2 counterexample: an article whose image URL is present but empty gets
image bonus 0, not 2 — with an unlisted source and an unparsable timestamp
its total is 5 + 3 + 0 = 8, while the claim demands 5 + 3 + 2 = 10. -/
theorem score_components_cex :
    emptyImageArticle.image_url.isSome = true
    ∧ (scoreArticle (fun _ => none) emptyImageArticle).priority_score = 8
    ∧ (scoreArticle (fun _ => none) emptyImageArticle).priority_score ≠ (5 : ℚ) + 3 + 2 := by
  have h : (scoreArticle (fun _ => none) emptyImageArticle).priority_score = 8 := by
    simp [scoreArticle, emptyImageArticle, TRUSTED_SOURCES_get, TRUSTED_SOURCES,
      List.lookup, calculate_recency_score, has_image_bonus, pyTruthy]
    norm_num
  exact ⟨rfl, h, by rw [h]; norm_num⟩

/-- Witness for C2 on the spec's BBC scenario: listed source scores its
table value 10, an unlisted source scores 5, a non-empty image URL scores
bonus 2, and the total at 1 elapsed hour is 10 + 10 + 2 = 22. -/
theorem score_components_witness :
    TRUSTED_SOURCES_get bbcArticle.source = 10
    ∧ TRUSTED_SOURCES_get emptyImageArticle.source = 5
    ∧ has_image_bonus bbcArticle.image_url = 2
    ∧ (scoreArticle (fun _ => some 1) bbcArticle).priority_score = 22 := by
  have h := score_components (fun _ => some 1) bbcArticle
  have h' := score_components (fun _ => some 1) emptyImageArticle
  have t1 : TRUSTED_SOURCES_get bbcArticle.source = 10 :=
    h.2.2.1 10 (by simp [bbcArticle, TRUSTED_SOURCES])
  have t2 : calculate_recency_score (fun _ => some (1 : ℚ)) bbcArticle.published_at = 10 := by
    simp only [calculate_recency_score]
    exact recencyFromHours_le6 1 (by norm_num)
  have t3 : has_image_bonus bbcArticle.image_url = 2 :=
    h.2.2.2.1 "http://example.com/b.jpg" rfl (by decide)
  refine ⟨t1, h'.2.1 ?_, t3, ?_⟩
  · intro v hv
    simp [emptyImageArticle, TRUSTED_SOURCES] at hv
  · rw [h.1, t1, t2, t3]
    norm_num

lemma scoreLE_trans (a b c : Article) (hab : scoreLE a b) (hbc : scoreLE b c) :
    scoreLE a c := by
  simp only [scoreLE, decide_eq_true_eq] at hab hbc ⊢
  exact le_trans hbc hab

lemma scoreLE_total (a b : Article) : scoreLE a b || scoreLE b a := by
  simp only [scoreLE, Bool.or_eq_true, decide_eq_true_eq]
  exact le_total b.priority_score a.priority_score

lemma take_pre {α : Type*} (n : ℕ) (l : List α) : l.take n <+: l :=
  ⟨l.drop n, List.take_append_drop n l⟩

lemma pre_filter {α : Type*} (p : α → Bool) {l₁ l₂ : List α} (h : l₁ <+: l₂) :
    l₁.filter p <+: l₂.filter p := by
  obtain ⟨t, rfl⟩ := h
  exact ⟨t.filter p, by simp⟩

/-- Stability of the descending sort: elements with any fixed score keep
their input order, expressed as equality of the score-`q` subsequences. -/
lemma mergeSort_filter_eq (q : ℚ) (l : List Article) :
    (l.mergeSort scoreLE).filter (fun a => decide (a.priority_score = q))
      = l.filter (fun a => decide (a.priority_score = q)) := by
  have hpair : (l.filter fun a => decide (a.priority_score = q)).Pairwise
      (fun x y : Article => scoreLE x y) := by
    rw [List.pairwise_filter]
    refine List.pairwise_of_forall ?_
    intro x y hx hy
    simp only [scoreLE, hx, hy, decide_eq_true_eq]
    exact le_refl q
  have hsub : List.Sublist (l.filter fun a => decide (a.priority_score = q)) (l.mergeSort scoreLE) :=
    List.sublist_mergeSort scoreLE_trans scoreLE_total hpair (List.filter_sublist l)
  have h2 := hsub.filter (fun a => decide (a.priority_score = q))
  have h3 : ((l.filter fun a => decide (a.priority_score = q)).filter
      fun a => decide (a.priority_score = q))
      = l.filter fun a => decide (a.priority_score = q) :=
    List.filter_eq_self.mpr fun a ha => (List.mem_filter.mp ha).2
  rw [h3] at h2
  have h4 : List.Perm ((l.mergeSort scoreLE).filter fun a => decide (a.priority_score = q))
      (l.filter fun a => decide (a.priority_score = q)) :=
    (List.mergeSort_perm l scoreLE).filter _
  exact (h2.eq_of_length h4.length_eq.symm).symm

/-- C1: the ranker returns `min 5 (input length)` articles, sorted by
non-increasing total priority score, and among equal scores the original
fetch order is preserved (the score-`q` subsequence of the output is a
prefix of the score-`q` subsequence of the scored input, for every `q`). -/
theorem prioritize_top5_sorted_stable (parse : String → Option ℚ) (articles : List Article) :
    (prioritize_articles parse articles).length = min 5 articles.length
    ∧ (prioritize_articles parse articles).Pairwise
        (fun x y => y.priority_score ≤ x.priority_score)
    ∧ ∀ q : ℚ,
        (prioritize_articles parse articles).filter (fun a => decide (a.priority_score = q))
          <+: (articles.map (scoreArticle parse)).filter
              (fun a => decide (a.priority_score = q)) := by
  refine ⟨?_, ?_, ?_⟩
  · simp [prioritize_articles]
  · have hs := List.sorted_mergeSort scoreLE_trans scoreLE_total
      (articles.map (scoreArticle parse))
    have hp := hs.sublist (List.take_sublist 5 _)
    exact hp.imp fun h => of_decide_eq_true h
  · intro q
    have he := mergeSort_filter_eq q (articles.map (scoreArticle parse))
    have h1 := pre_filter (fun a : Article => decide (a.priority_score = q))
      (take_pre 5 ((articles.map (scoreArticle parse)).mergeSort scoreLE))
    rw [he] at h1
    exact h1

lemma findSplit_append (c : Char) :
    ∀ (pre suf : List Char), c ∉ pre → findSplit c (pre ++ c :: suf) = some (pre, suf) := by
  intro pre
  induction pre with
  | nil => intro suf _; simp [findSplit]
  | cons x xs ih =>
    intro suf h
    have hx : x ≠ c := fun e => h (e ▸ List.mem_cons_self x xs)
    have hxs : c ∉ xs := fun m => h (List.mem_cons_of_mem x m)
    simp only [List.cons_append, findSplit, if_neg hx, List.append_eq, ih suf hxs]

lemma findSplit_some (c : Char) :
    ∀ {l pre suf : List Char}, findSplit c l = some (pre, suf) →
      l = pre ++ c :: suf ∧ c ∉ pre := by
  intro l
  induction l with
  | nil => intro pre suf h; simp [findSplit] at h
  | cons x xs ih =>
    intro pre suf h
    by_cases hx : x = c
    · simp only [findSplit, if_pos hx, Option.some.injEq, Prod.mk.injEq] at h
      obtain ⟨rfl, rfl⟩ := h
      simp [hx]
    · simp only [findSplit, if_neg hx] at h
      cases hf : findSplit c xs with
      | none => rw [hf] at h; simp at h
      | some pr =>
        obtain ⟨pre', suf'⟩ := pr
        rw [hf] at h
        simp only [Option.some.injEq, Prod.mk.injEq] at h
        obtain ⟨rfl, rfl⟩ := h
        obtain ⟨hxs, hmem⟩ := ih hf
        refine ⟨by simp [hxs], ?_⟩
        intro hm
        rcases List.mem_cons.mp hm with he | hm'
        · exact hx he.symm
        · exact hmem hm'

lemma tryMatch_build (text link rest : List Char) (ht : text ≠ []) (htm : ']' ∉ text)
    (hl : link ≠ []) (hlm : ')' ∉ link) :
    tryMatch (text ++ (']' :: ('(' :: (link ++ (')' :: rest))))) = some (text, rest) := by
  have e1 : findSplit ']' (text ++ (']' :: ('(' :: (link ++ (')' :: rest)))))
      = some (text, '(' :: (link ++ (')' :: rest))) :=
    findSplit_append ']' text ('(' :: (link ++ (')' :: rest))) htm
  have e2 : findSplit ')' (link ++ (')' :: rest)) = some (link, rest) :=
    findSplit_append ')' link rest hlm
  unfold tryMatch
  simp [e1, e2, ht, hl]

lemma tryMatch_some {l text rem : List Char} (h : tryMatch l = some (text, rem)) :
    ∃ link, l = text ++ (']' :: ('(' :: (link ++ (')' :: rem))))
      ∧ text ≠ [] ∧ ']' ∉ text ∧ link ≠ [] ∧ ')' ∉ link := by
  unfold tryMatch at h
  split at h
  · exact absurd h (by simp)
  · rename_i text' rest₁ heq
    split at h
    · exact absurd h (by simp)
    · rename_i ht
      split at h
      · exact absurd h (by simp)
      · rename_i c rest₂
        split at h
        · rename_i hc
          split at h
          · exact absurd h (by simp)
          · rename_i link rest₃ hg
            split at h
            · exact absurd h (by simp)
            · rename_i hl
              simp only [Option.some.injEq, Prod.mk.injEq] at h
              obtain ⟨rfl, rfl⟩ := h
              obtain ⟨hl₁, hm₁⟩ := findSplit_some ']' heq
              obtain ⟨hl₂, hm₂⟩ := findSplit_some ')' hg
              exact ⟨link, by simp [hl₁, hl₂, hc], ht, hm₁, hl, hm₂⟩
        · exact absurd h (by simp)

lemma tryMatch_rem_length {l text rem : List Char} (h : tryMatch l = some (text, rem)) :
    rem.length < l.length := by
  obtain ⟨link, he, -, -, -, -⟩ := tryMatch_some h
  subst he
  simp [List.length_append]
  omega

lemma stripLinksGo_fuel :
    ∀ (f₁ f₂ : ℕ) (l : List Char), l.length ≤ f₁ → l.length ≤ f₂ →
      stripLinksGo f₁ l = stripLinksGo f₂ l := by
  intro f₁
  induction f₁ with
  | zero =>
    intro f₂ l h1 _
    have he : l = [] := List.length_eq_zero.mp (Nat.le_zero.mp h1)
    subst he
    cases f₂ <;> rfl
  | succ f ih =>
    intro f₂ l h1 h2
    cases l with
    | nil => cases f₂ <;> rfl
    | cons c rest =>
      cases f₂ with
      | zero => simp at h2
      | succ f₂' =>
        simp only [stripLinksGo]
        by_cases hc : c = '['
        · simp only [if_pos hc]
          cases hm : tryMatch rest with
          | none =>
            dsimp only
            congr 1
            exact ih f₂' rest (by simp at h1; omega) (by simp at h2; omega)
          | some pr =>
            obtain ⟨text, rem⟩ := pr
            dsimp only
            congr 1
            have hrem := tryMatch_rem_length hm
            have hr1 : rest.length + 1 ≤ f + 1 := by simpa using h1
            have hr2 : rest.length + 1 ≤ f₂' + 1 := by simpa using h2
            exact ih f₂' rem (by omega) (by omega)
        · simp only [if_neg hc]
          congr 1
          exact ih f₂' rest (by simp at h1; omega) (by simp at h2; omega)

lemma stripLinks_cons_other {c : Char} (l : List Char) (hc : c ≠ '[') :
    stripLinks (c :: l) = c :: stripLinks l := by
  unfold stripLinks
  simp only [List.length_cons, stripLinksGo, if_neg hc]

lemma stripLinks_no_bracket : ∀ (l : List Char), '[' ∉ l → stripLinks l = l := by
  intro l
  induction l with
  | nil => intro _; rfl
  | cons c rest ih =>
    intro h
    have hc : c ≠ '[' := fun e => h (e ▸ List.mem_cons_self c rest)
    rw [stripLinks_cons_other rest hc, ih fun m => h (List.mem_cons_of_mem c m)]

lemma stripLinks_match_eq (text link rest : List Char) (ht : text ≠ []) (htm : ']' ∉ text)
    (hl : link ≠ []) (hlm : ')' ∉ link) :
    stripLinks ('[' :: (text ++ (']' :: ('(' :: (link ++ (')' :: rest))))))
      = text ++ stripLinks rest := by
  have htry := tryMatch_build text link rest ht htm hl hlm
  unfold stripLinks
  simp only [List.length_cons, stripLinksGo, htry, eq_self_iff_true, if_true]
  congr 1
  exact stripLinksGo_fuel (text ++ (']' :: ('(' :: (link ++ (')' :: rest))))).length
    rest.length rest (by simp [List.length_append]; omega) (le_refl _)

lemma mem_pyStrip {c : Char} {l : List Char} (h : c ∈ pyStrip l) : c ∈ l := by
  unfold pyStrip at h
  rw [List.mem_reverse] at h
  have h1 := (List.dropWhile_sublist pyIsSpace).subset h
  rw [List.mem_reverse] at h1
  exact (List.dropWhile_sublist pyIsSpace).subset h1

/-- C4 (amended): the rewrite stage trims surrounding whitespace, replaces
every matched occurrence of `[text](url)` (non-empty `text` without `]`,
non-empty `url` without `)`) by `text`, and hard-truncates to 250
characters: the returned post never exceeds 250 characters and is exactly
250 characters whenever the trimmed, link-stripped text reaches 250; on
bracket-free output only the trim and the truncation act. -/
theorem rewrite_strip_trim_truncate (content : List Char) :
    (rewriteOne content).length ≤ 250
    ∧ (250 ≤ (stripLinks (pyStrip content)).length → (rewriteOne content).length = 250)
    ∧ (∀ text link rest : List Char, text ≠ [] → ']' ∉ text → link ≠ [] → ')' ∉ link →
        stripLinks ('[' :: (text ++ (']' :: ('(' :: (link ++ (')' :: rest))))))
          = text ++ stripLinks rest)
    ∧ ('[' ∉ content → rewriteOne content = (pyStrip content).take 250) := by
  refine ⟨?_, ?_, ?_, ?_⟩
  · simp only [rewriteOne, List.length_take]
    omega
  · intro h
    simp only [rewriteOne, List.length_take]
    omega
  · intro text link rest ht htm hl hlm
    exact stripLinks_match_eq text link rest ht htm hl hlm
  · intro h
    unfold rewriteOne
    rw [stripLinks_no_bracket (pyStrip content) fun m => h (mem_pyStrip m)]

set_option maxRecDepth 10000 in
/-- C4 counterexample: `overlongOutput` is a 251-character model output
(length greater than 250) containing the link `[a](b)`, yet the rewritten
post is the 3-character string `a](` — not 250 characters, and still
containing the substring `](`. -/
theorem rewrite_strip_trim_truncate_cex :
    250 < overlongOutput.length
    ∧ rewriteOne overlongOutput = [ 'a', ']', '(' ]
    ∧ (rewriteOne overlongOutput).length ≠ 250 :=
  ⟨by decide, by decide, by decide⟩

set_option maxRecDepth 10000 in
/-- Witness for C4: a 251-character output of `x`s truncates to exactly 250
characters, and `[a](b)` strips to `a`. -/
theorem rewrite_strip_trim_truncate_witness :
    (rewriteOne (List.replicate 251 'x')).length = 250
    ∧ stripLinks ("[a](b)".toList) = "a".toList := by
  refine ⟨(rewrite_strip_trim_truncate (List.replicate 251 'x')).2.1 (by decide), ?_⟩
  have h := (rewrite_strip_trim_truncate []).2.2.1 [ 'a' ] [ 'b' ] []
    (by decide) (by decide) (by decide) (by decide)
  have e : "[a](b)".toList
      = '[' :: ([ 'a' ] ++ (']' :: ('(' :: ([ 'b' ] ++ (')' :: ([] : List Char)))))) := by
    decide
  rw [e, h]
  decide

lemma post_preview (clientV2 clientV1 : Bool) (env : ℕ → ItemEnv) (tweets : List String)
    (articles : List Article) (apr : AutoPostVal) (num_opt : Option ℕ)
    (h : resolveAutoPost apr = false) :
    post_to_twitter clientV2 clientV1 env tweets articles apr num_opt
      = .ok ((tweets.take (num_opt.getD 1)).map fun t =>
          { tweet_text := t, tweet_id := none, tweet_url := none,
            success := false, error := some "Auto-post disabled" }) := by
  simp only [post_to_twitter, h, if_pos]

/-- C6: with auto-post disabled the publish stage contacts no collaborator
and succeeds whatever the client state: for arbitrary (even uninitialized)
clients and an arbitrary environment it returns, for each of the first
`num_tweets_to_post` posts, a failed result with error `Auto-post disabled`
and the original post text (no URL appended). -/
theorem preview_mode_short_circuits (clientV2 clientV1 : Bool) (env : ℕ → ItemEnv)
    (tweets : List String) (articles : List Article) (apr : AutoPostVal)
    (num_opt : Option ℕ) (h : resolveAutoPost apr = false) :
    post_to_twitter clientV2 clientV1 env tweets articles apr num_opt
      = .ok ((tweets.take (num_opt.getD 1)).map fun t =>
          { tweet_text := t, tweet_id := none, tweet_url := none,
            success := false, error := some "Auto-post disabled" }) :=
  post_preview clientV2 clientV1 env tweets articles apr num_opt h

/-- Witness for C6: uninitialized clients, limit 2, three available posts:
exactly the first two posts come back as disabled previews. -/
theorem preview_mode_short_circuits_witness :
    post_to_twitter false false (fun _ => deadEnv) ["p1", "p2", "p3"] [] (.boolean false)
        (some 2)
      = .ok [ { tweet_text := "p1", tweet_id := none, tweet_url := none,
                success := false, error := some "Auto-post disabled" },
              { tweet_text := "p2", tweet_id := none, tweet_url := none,
                success := false, error := some "Auto-post disabled" } ] := by
  have h := preview_mode_short_circuits false false (fun _ => deadEnv) ["p1", "p2", "p3"]
    [] (.boolean false) (some 2) rfl
  exact h

/-- C9: a string-valued auto-post flag enables live posting exactly when it
lowercases to `"true"`; any other string silently selects the preview
path. -/
theorem auto_post_string_gate (s : String) :
    (resolveAutoPost (.str s) = true ↔ pyLower s = "true")
    ∧ (pyLower s ≠ "true" →
        ∀ (clientV2 clientV1 : Bool) (env : ℕ → ItemEnv) (tweets : List String)
          (articles : List Article) (num_opt : Option ℕ),
          post_to_twitter clientV2 clientV1 env tweets articles (.str s) num_opt
            = .ok ((tweets.take (num_opt.getD 1)).map fun t =>
                { tweet_text := t, tweet_id := none, tweet_url := none,
                  success := false, error := some "Auto-post disabled" })) := by
  constructor
  · simp [resolveAutoPost]
  · intro hne clientV2 clientV1 env tweets articles num_opt
    apply post_preview
    simp [resolveAutoPost, hne]

/-- Witness for C9: `"TRUE"` enables live posting, `"yes"` does not. -/
theorem auto_post_string_gate_witness :
    resolveAutoPost (.str "TRUE") = true
    ∧ post_to_twitter true true (fun _ => deadEnv) ["y1", "y2"] [] (.str "yes") none
      = .ok [ { tweet_text := "y1", tweet_id := none, tweet_url := none,
                success := false, error := some "Auto-post disabled" } ] := by
  refine ⟨(auto_post_string_gate "TRUE").1.mpr (by decide), ?_⟩
  have h := (auto_post_string_gate "yes").2 (by decide) true true (fun _ => deadEnv)
    ["y1", "y2"] [] none
  exact h

lemma postStep_invariant (full : String) (mid : Option ℕ)
    (create : Option ℕ → Except String String) :
    ((postStep full mid create).success = true
        ↔ (postStep full mid create).tweet_id.isSome = true
          ∧ (postStep full mid create).tweet_url.isSome = true
          ∧ (postStep full mid create).error = none)
    ∧ ((postStep full mid create).success = false
        ↔ (postStep full mid create).tweet_id = none
          ∧ (postStep full mid create).tweet_url = none) := by
  unfold postStep
  cases create mid <;> simp

lemma postLoop_length (env : ℕ → ItemEnv) :
    ∀ (i : ℕ) (ps : List (String × Article)), (postLoop env i ps).length = ps.length := by
  intro i ps
  induction ps generalizing i with
  | nil => rfl
  | cons p rest ih =>
    obtain ⟨tw, a⟩ := p
    simp [postLoop, ih]

lemma mem_postLoop {env : ℕ → ItemEnv} :
    ∀ {i : ℕ} {ps : List (String × Article)} {r : TweetResult}, r ∈ postLoop env i ps →
      ∃ j tw a, r = postPair (env j) tw a := by
  intro i ps
  induction ps generalizing i with
  | nil => intro r h; simp [postLoop] at h
  | cons p rest ih =>
    obtain ⟨tw, a⟩ := p
    intro r h
    rcases List.mem_cons.mp h with he | hm
    · exact ⟨i, tw, a, he⟩
    · exact ih hm

/-- C5: every result list the publish stage returns satisfies the
`TweetResult` invariant — `success` is true exactly when the tweet id and
tweet URL are present and the error is absent, and false exactly when id
and URL are absent — and its length never exceeds
`min num_tweets_to_post (number of available posts)`. -/
theorem tweet_results_invariant (clientV2 clientV1 : Bool) (env : ℕ → ItemEnv)
    (tweets : List String) (articles : List Article) (apr : AutoPostVal)
    (num_opt : Option ℕ) (res : List TweetResult)
    (h : post_to_twitter clientV2 clientV1 env tweets articles apr num_opt = .ok res) :
    (∀ r ∈ res,
      (r.success = true
        ↔ r.tweet_id.isSome = true ∧ r.tweet_url.isSome = true ∧ r.error = none)
      ∧ (r.success = false ↔ r.tweet_id = none ∧ r.tweet_url = none))
    ∧ res.length ≤ min (num_opt.getD 1) tweets.length := by
  simp only [post_to_twitter] at h
  split at h
  · injection h with h'
    subst h'
    constructor
    · intro r hr
      simp only [List.mem_map] at hr
      obtain ⟨t, -, rfl⟩ := hr
      constructor <;> simp
    · simp
  · split at h
    · exact absurd h (by simp)
    · injection h with h'
      subst h'
      constructor
      · intro r hr
        obtain ⟨j, tw, a, rfl⟩ := mem_postLoop hr
        exact postStep_invariant (tw ++ "\n\n" ++ a.url)
          (imageStep a.image_url (env j).fetch (env j).upload).media_id (env j).post
      · rw [postLoop_length]
        simp only [List.length_zip, List.length_take]
        omega

/-- Witness for C5: one live pair whose post creation raises yields one
failed result satisfying the invariant, within the limit. -/
theorem tweet_results_invariant_witness :
    (∀ r ∈ [({ tweet_text := "w\n\nhttp://example.com/b", tweet_id := none,
               tweet_url := none, success := false, error := some "offline" } : TweetResult)],
      (r.success = true
        ↔ r.tweet_id.isSome = true ∧ r.tweet_url.isSome = true ∧ r.error = none)
      ∧ (r.success = false ↔ r.tweet_id = none ∧ r.tweet_url = none))
    ∧ ([({ tweet_text := "w\n\nhttp://example.com/b", tweet_id := none,
           tweet_url := none, success := false, error := some "offline" } : TweetResult)]).length
        ≤ min ((some 1).getD 1) (["w"] : List String).length :=
  tweet_results_invariant true true (fun _ => deadEnv) ["w"] [bbcArticle] (.boolean true)
    (some 1) _ rfl

lemma imageStep_media_none (u : Option String) (f up : Except String ℕ)
    (hfail : (∃ msg, f = .error msg) ∨ (∃ code, f = .ok code ∧ code ≠ 200)
      ∨ (∃ msg, up = .error msg)) :
    (imageStep u f up).media_id = none := by
  rcases hfail with ⟨m, rfl⟩ | ⟨c, rfl, hc⟩ | ⟨m, hm⟩
  · by_cases ht : pyTruthy u <;> simp [imageStep, ht]
  · by_cases ht : pyTruthy u <;> simp [imageStep, ht, hc]
  · subst hm
    by_cases ht : pyTruthy u
    · cases f with
      | error m' => simp [imageStep, ht]
      | ok c =>
        by_cases hc : c = 200 <;> simp [imageStep, ht, hc]
    · simp [imageStep, ht]

lemma postLoop_getD (env : ℕ → ItemEnv) :
    ∀ (ps : List (String × Article)) (i j : ℕ), j < ps.length →
      (postLoop env i ps).getD j default
        = postPair (env (i + j)) (ps.getD j ("", noArticle)).1 (ps.getD j ("", noArticle)).2 := by
  intro ps
  induction ps with
  | nil => intro i j h; simp at h
  | cons p rest ih =>
    intro i j h
    obtain ⟨tw, a⟩ := p
    cases j with
    | zero => simp [postLoop]
    | succ j' =>
      have hj' : j' < rest.length := by simp at h; omega
      have := ih (i + 1) j' hj'
      simp only [postLoop, List.getD_cons_succ]
      rw [this, show i + 1 + j' = i + (j' + 1) from by omega]

/-- C7: in live mode every pair is attempted (the result list has one entry
per pair); a failed image fetch (exception or non-200 status) or a failed
upload still reaches the tweet-creation call with no media id; and an
exception raised by tweet creation makes only that pair's result a failure
carrying the exception's message. -/
theorem live_mode_per_item_isolation (clientV2 clientV1 : Bool) (env : ℕ → ItemEnv)
    (tweets : List String) (articles : List Article) (apr : AutoPostVal)
    (num_opt : Option ℕ) (res : List TweetResult)
    (hap : resolveAutoPost apr = true) (hc2 : clientV2 = true) (hc1 : clientV1 = true)
    (h : post_to_twitter clientV2 clientV1 env tweets articles apr num_opt = .ok res) :
    res.length
        = ((tweets.take (num_opt.getD 1)).zip (articles.take (num_opt.getD 1))).length
    ∧ ∀ j tw a,
        j < ((tweets.take (num_opt.getD 1)).zip (articles.take (num_opt.getD 1))).length →
        ((tweets.take (num_opt.getD 1)).zip (articles.take (num_opt.getD 1))).getD j
            ("", noArticle) = (tw, a) →
        (((∃ msg, (env j).fetch = .error msg)
            ∨ (∃ code, (env j).fetch = .ok code ∧ code ≠ 200)
            ∨ (∃ msg, (env j).upload = .error msg)) →
          res.getD j default = postStep (tw ++ "\n\n" ++ a.url) none (env j).post)
        ∧ (∀ msg,
            (env j).post (imageStep a.image_url (env j).fetch (env j).upload).media_id
              = .error msg →
            (res.getD j default).success = false
              ∧ (res.getD j default).error = some msg) := by
  subst hc2 hc1
  simp only [post_to_twitter, hap] at h
  simp only [show (true = false) = False from by simp, if_false, false_or, or_false] at h
  injection h with h'
  subst h'
  refine ⟨postLoop_length env 0 _, ?_⟩
  intro j tw a hj hpair
  have hres : (postLoop env 0
        ((tweets.take (num_opt.getD 1)).zip (articles.take (num_opt.getD 1)))).getD j default
      = postPair (env j) tw a := by
    rw [postLoop_getD env _ 0 j hj, hpair]
    simp
  constructor
  · intro hfail
    rw [hres]
    unfold postPair
    rw [imageStep_media_none a.image_url (env j).fetch (env j).upload hfail]
  · intro msg hp
    rw [hres]
    unfold postPair
    simp [postStep, hp]

/-- Witness for C7: one pair with image fetch returning 404 and tweet
creation raising `boom`: the result is the text-only post attempt's
failure, carrying `boom`. -/
theorem live_mode_per_item_isolation_witness :
    ([({ tweet_text := "w\n\nhttp://example.com/b", tweet_id := none, tweet_url := none,
         success := false, error := some "boom" } : TweetResult)]).getD 0 default
      = postStep ("w" ++ "\n\n" ++ bbcArticle.url) none (envW 0).post
    ∧ (([({ tweet_text := "w\n\nhttp://example.com/b", tweet_id := none, tweet_url := none,
            success := false, error := some "boom" } : TweetResult)]).getD 0 default).success
        = false
    ∧ (([({ tweet_text := "w\n\nhttp://example.com/b", tweet_id := none, tweet_url := none,
            success := false, error := some "boom" } : TweetResult)]).getD 0 default).error
        = some "boom" := by
  have h := live_mode_per_item_isolation true true envW ["w"] [bbcArticle] (.boolean true)
    (some 1) _ rfl rfl rfl rfl
  have h2 := h.2 0 "w" bbcArticle (by decide) (by decide)
  exact ⟨h2.1 (Or.inr (Or.inl ⟨404, rfl, by decide⟩)), (h2.2 "boom" rfl).1, (h2.2 "boom" rfl).2⟩

/-- C10: when the state has no `num_tweets_to_post` entry the stage behaves
exactly as with the stage-level default 1 (not the environment-reading
default 2 of `main`), and at most one pair is attempted. -/
theorem missing_num_defaults_to_one (clientV2 clientV1 : Bool) (env : ℕ → ItemEnv)
    (tweets : List String) (articles : List Article) (apr : AutoPostVal) :
    post_to_twitter clientV2 clientV1 env tweets articles apr none
      = post_to_twitter clientV2 clientV1 env tweets articles apr (some 1)
    ∧ ∀ res, post_to_twitter clientV2 clientV1 env tweets articles apr none = .ok res →
        res.length ≤ 1 := by
  constructor
  · rfl
  · intro res h
    simp only [post_to_twitter, Option.getD] at h
    split at h
    · injection h with h'
      subst h'
      simp only [List.length_map, List.length_take]
      omega
    · split at h
      · exact absurd h (by simp)
      · injection h with h'
        subst h'
        rw [postLoop_length]
        simp only [List.length_zip, List.length_take]
        omega

/-- Witness for C10: two available posts, missing limit: the preview run
equals the limit-1 run and returns a single result. -/
theorem missing_num_defaults_to_one_witness :
    post_to_twitter false false (fun _ => deadEnv) ["a", "b"] [] .missing none
      = post_to_twitter false false (fun _ => deadEnv) ["a", "b"] [] .missing (some 1)
    ∧ ([({ tweet_text := "a", tweet_id := none, tweet_url := none,
           success := false, error := some "Auto-post disabled" } : TweetResult)]).length
        ≤ 1 := by
  have h := missing_num_defaults_to_one false false (fun _ => deadEnv) ["a", "b"] [] .missing
  exact ⟨h.1, h.2 _ rfl⟩

/-- C8 (code bug): the temporary media file is never deleted.  Whenever the
fetch returns HTTP 200 the block creates the file with `delete=False` and
no unlink ever runs, so after the upload attempt completes — successfully
or not — the file still exists, contradicting the stated release. -/
theorem temp_file_never_deleted :
    (∀ (u : Option String) (f up : Except String ℕ), (imageStep u f up).tmp_deleted = false)
    ∧ imageStep (some "http://example.com/b.jpg") (.ok 200) (.ok 7)
        = { media_id := some 7, tmp_created := true, tmp_deleted := false }
    ∧ imageStep (some "http://example.com/b.jpg") (.ok 200) (.error "upload failed")
        = { media_id := none, tmp_created := true, tmp_deleted := false } := by
  refine ⟨?_, rfl, rfl⟩
  intro u f up
  by_cases ht : pyTruthy u
  · cases f with
    | error m => simp [imageStep, ht]
    | ok c =>
      by_cases hc : c = 200
      · cases up <;> simp [imageStep, ht, hc]
      · simp [imageStep, ht, hc]
  · simp [imageStep, ht]

end NewsAgent
